import Mathlib

/-!
# The Whiteboard component

A shallow embedding of the stroke handling of `src/public/conponent/whiteboard.jsx`:
the React state (`color`, `brushSize`, `history`, `redoStack`), the fabric canvas held in
`canvasRef.current`, the two listeners registered by the effect (`'path:created'` on the
canvas, `'draw'` on the socket) and the two button handlers `handleUndo` and `handleRedo`.

The fabric library is not part of the repository.  The two library calls whose result the
component stores, `path.toObject()` and `new fabric.Path(data.path, data)`, are parameters
of the model (`Fabric`).  What the component relies on from `fabric.Canvas` is modelled
directly: a new canvas has no objects, `canvas.add` puts an object at the end of
`canvas._objects`, and `canvas.renderAll()` changes no state.

One event handler runs at a time, and a React state update made by a handler is in place
before the next handler runs; handlers are therefore functions from state to state.

The effect registers its `'draw'` listener with `socket.on` and never removes it.  The
listeners left over from earlier runs of the effect add to the canvases of those runs, which
have been disposed and are no longer in `canvasRef.current`; the state below holds the
current canvas only, and `onDraw` is the listener of the current run.
-/

namespace Whiteboard

/-- Exceptions of the JavaScript run time that a handler of the component can raise. -/
inductive JSError where
  /-- Reading a property of `null` or `undefined`. -/
  | typeError
  /-- An exception raised inside the fabric constructor. -/
  | libraryError (code : Nat)
deriving DecidableEq, Repr

/-- The way a handler invocation ends. -/
inductive Outcome where
  | returned
  | threw (e : JSError)
deriving DecidableEq, Repr

/-- The argument a socket listener is called with: `null`, `undefined`, or any other
value, of type `D`. -/
inductive Payload (D : Type) where
  | null
  | undefined
  | value (d : D)
deriving DecidableEq, Repr

/-- The two fabric calls whose results the component keeps.  `D` is the type of plain
serialisable values, `O` the type of fabric objects. -/
structure Fabric (D O : Type) where
  /-- The method `toObject()` of a path. -/
  toObject : O → D
  /-- The call `new fabric.Path(data.path, data)` as a function of `data`; the constructor
  either returns a path or throws. -/
  newPath : D → Except JSError O

/-- A `fabric.Canvas` instance, reduced to the fields the component reads or writes. -/
structure Canvas (O : Type) where
  /-- The field `_objects`: the objects on the canvas, bottom first. -/
  objects : List O
  isDrawingMode : Bool
  /-- The field `freeDrawingBrush.color`. -/
  brushColor : String
  /-- The field `freeDrawingBrush.width`. -/
  brushWidth : Nat
deriving DecidableEq, Repr

/-- The state of one mounted `Whiteboard` component. -/
structure State (D O : Type) where
  color : String
  brushSize : Nat
  history : List D
  redoStack : List O
  /-- The canvas in `canvasRef.current`. -/
  canvas : Canvas O
  /-- The payloads passed to `socket.emit('draw', _)` so far, oldest first. -/
  emitted : List D
deriving DecidableEq, Repr

variable {D O : Type}

/-- The canvas built by lines 21-25: `new fabric.Canvas(_, { isDrawingMode: true })` with
the brush colour and width set from the React state.  A new canvas holds no objects. -/
def newCanvas (color : String) (brushSize : Nat) : Canvas O :=
  { objects := [], isDrawingMode := true, brushColor := color, brushWidth := brushSize }

/-- The body of the effect (lines 20-41) as far as the state goes: a new canvas is built
and stored in `canvasRef.current`.  When the effect runs again, the clean-up
`canvas.dispose()` of the previous run has discarded the previous canvas. -/
def runEffect (st : State D O) : State D O :=
  { st with canvas := newCanvas st.color st.brushSize }

/-- The component after its first render and the first run of the effect: the initial
React state of lines 11-14 and the canvas the effect has built from it. -/
def mounted : State D O :=
  { color := "#000000", brushSize := 5, history := [], redoStack := [],
    canvas := newCanvas "#000000" 5, emitted := [] }

/-- The colour input (line 109): `setColor(e.target.value)`.  React keeps the state and
renders nothing when the value is the current one; otherwise the dependency `color` of the
effect has changed and the effect runs again. -/
def setColor (st : State D O) (c : String) : State D O :=
  if c = st.color then st else runEffect { st with color := c }

/-- The brush size selector (line 110): `setBrushSize(Number(e.target.value))`. -/
def setBrushSize (st : State D O) (n : Nat) : State D O :=
  if n = st.brushSize then st else runEffect { st with brushSize := n }

/-- The method `canvas.add(obj)`: the object goes to the end of `_objects`. -/
def Canvas.add (c : Canvas O) (obj : O) : Canvas O :=
  { c with objects := c.objects ++ [obj] }

/-- The listener of `'path:created'` (lines 28-33). -/
def onPathCreated (F : Fabric D O) (st : State D O) (path : O) : State D O :=
  let pathData := F.toObject path
  { st with
    emitted := st.emitted ++ [pathData]
    history := st.history ++ [pathData]
    redoStack := [] }

/-- A local stroke creation: the free drawing brush of fabric adds the finished path to
the canvas and then fires `'path:created'` with it. -/
def createLocal (F : Fabric D O) (st : State D O) (path : O) : State D O :=
  onPathCreated F { st with canvas := st.canvas.add path } path

/-- The listener of the socket event `'draw'` (lines 35-38).  Reading `data.path` throws a
`TypeError` when `data` is `null` or `undefined`; nothing in the component catches it. -/
def onDraw (F : Fabric D O) (st : State D O) (data : Payload D) : State D O × Outcome :=
  match data with
  | .null => (st, .threw .typeError)
  | .undefined => (st, .threw .typeError)
  | .value d =>
    match F.newPath d with
    | .error e => (st, .threw e)
    | .ok path => ({ st with canvas := st.canvas.add path }, .returned)

/-- The handler `handleUndo` (lines 43-50).  `canvas._objects.pop()` removes the last
object and returns it; the redo stack becomes `[...prev, last]`. -/
def handleUndo (st : State D O) : State D O :=
  if h : st.canvas.objects.length > 0 then
    let last := st.canvas.objects.getLast (List.ne_nil_of_length_pos h)
    { st with
      canvas := { st.canvas with objects := st.canvas.objects.dropLast }
      redoStack := st.redoStack ++ [last] }
  else st

/-- The handler `handleRedo` (lines 52-59).  `redoStack.pop()` shortens the state array in
place and returns its last element, or `undefined` (falsy) when the array is empty; every
element of the redo stack is a fabric object, hence truthy. -/
def handleRedo (st : State D O) : State D O :=
  match st.redoStack.getLast? with
  | some redoItem =>
    { st with
      redoStack := st.redoStack.dropLast
      canvas := st.canvas.add redoItem }
  | none => st

/-- The events a mounted component reacts to. -/
inductive Event (D O : Type) where
  /-- The user finishes a freehand path. -/
  | create (path : O)
  /-- The socket delivers a `'draw'` event. -/
  | draw (data : Payload D)
  | undo
  | redo
  | pickColor (c : String)
  | pickBrushSize (n : Nat)

/-- One turn of the event loop.  An exception thrown by the `'draw'` listener is not
caught by the component; the state is the one the listener left. -/
def step (F : Fabric D O) (st : State D O) : Event D O → State D O
  | .create path => createLocal F st path
  | .draw data => (onDraw F st data).1
  | .undo => handleUndo st
  | .redo => handleRedo st
  | .pickColor c => setColor st c
  | .pickBrushSize n => setBrushSize st n

/-- The state after a sequence of events, oldest first. -/
def run (F : Fabric D O) (st : State D O) (evs : List (Event D O)) : State D O :=
  evs.foldl (step F) st

/-- The state after `k` presses of the Undo button. -/
def undoTimes : Nat → State D O → State D O
  | 0, st => st
  | k + 1, st => undoTimes k (handleUndo st)

/-- The data of the paths created locally in a sequence of events, in creation order. -/
def createdData (F : Fabric D O) : List (Event D O) → List D
  | [] => []
  | .create path :: evs => F.toObject path :: createdData F evs
  | _ :: evs => createdData F evs

/-! ## A concrete stand-in for fabric, used at concrete inputs -/

/-- The serialisable description of a path: its geometry and the style it was drawn
with. -/
structure PathData where
  path : String
  stroke : String
  strokeWidth : Nat
deriving DecidableEq, Repr

/-- A stand-in for the fabric library on well-formed path data: a path object is
identified with its description, `toObject` returns it and the constructor rebuilds the
path from it. -/
def plainFabric : Fabric PathData PathData where
  toObject := fun p => p
  newPath := fun d => .ok d

/-- The stroke of the scenario of the specification: colour `#000`, width 5. -/
def S1 : PathData := { path := "M 0 0 L 10 10", stroke := "#000", strokeWidth := 5 }

/-- A second stroke. -/
def S2 : PathData := { path := "M 5 5 L 20 5", stroke := "#000", strokeWidth := 5 }

/-! ## Basic facts about the handlers -/

theorem handleUndo_of_nil (st : State D O) (h : st.canvas.objects = []) :
    handleUndo st = st := by
  simp [handleUndo, h]

theorem handleUndo_of_append (st : State D O) (xs : List O) (x : O)
    (h : st.canvas.objects = xs ++ [x]) :
    handleUndo st =
      { st with canvas := { st.canvas with objects := xs }
                redoStack := st.redoStack ++ [x] } := by
  obtain ⟨color, brushSize, history, redoStack, ⟨objects, mode, bc, bw⟩, emitted⟩ := st
  simp only at h
  subst h
  simp [handleUndo]

theorem handleRedo_of_nil (st : State D O) (h : st.redoStack = []) :
    handleRedo st = st := by
  simp [handleRedo, h]

theorem handleRedo_of_append (st : State D O) (rs : List O) (r : O)
    (h : st.redoStack = rs ++ [r]) :
    handleRedo st = { st with redoStack := rs, canvas := st.canvas.add r } := by
  simp [handleRedo, h]

theorem handleUndo_history (st : State D O) : (handleUndo st).history = st.history := by
  unfold handleUndo
  split <;> rfl

theorem handleRedo_history (st : State D O) : (handleRedo st).history = st.history := by
  unfold handleRedo
  split <;> rfl

theorem onDraw_history (F : Fabric D O) (st : State D O) (data : Payload D) :
    (onDraw F st data).1.history = st.history := by
  unfold onDraw
  split
  · rfl
  · rfl
  · split <;> rfl

theorem onDraw_redoStack (F : Fabric D O) (st : State D O) (data : Payload D) :
    (onDraw F st data).1.redoStack = st.redoStack := by
  unfold onDraw
  split
  · rfl
  · rfl
  · split <;> rfl

theorem setColor_history (st : State D O) (c : String) :
    (setColor st c).history = st.history := by
  unfold setColor
  split <;> rfl

theorem setBrushSize_history (st : State D O) (n : Nat) :
    (setBrushSize st n).history = st.history := by
  unfold setBrushSize
  split <;> rfl

theorem onDraw_value_ok (F : Fabric D O) (st : State D O) (d : D) (path : O)
    (h : F.newPath d = .ok path) :
    onDraw F st (.value d) = ({ st with canvas := st.canvas.add path }, .returned) := by
  simp [onDraw, h]

/-! ## The listener of `'draw'` -/

/-- Claim C1, refuted as stated: the client draws `S1` on a fresh board, so the canvas is
`[S1]`; the `'draw'` event carrying the data of `S1` comes back, the listener returns
normally and the canvas holds the stroke twice. -/
theorem echo_is_appended_at_S1 :
    (createLocal plainFabric mounted S1).canvas.objects = [S1] ∧
    (onDraw plainFabric (createLocal plainFabric mounted S1)
      (.value (plainFabric.toObject S1))).2 = .returned ∧
    (onDraw plainFabric (createLocal plainFabric mounted S1)
      (.value (plainFabric.toObject S1))).1.canvas.objects = [S1, S1] ∧
    List.count S1 (onDraw plainFabric (createLocal plainFabric mounted S1)
      (.value (plainFabric.toObject S1))).1.canvas.objects = 2 := by
  refine ⟨rfl, rfl, rfl, ?_⟩
  decide

/-- Claim C1, amended: the listener of `'draw'` compares no origin.  For every state and
every path `S` on the canvas, when a `'draw'` event carrying the data of `S` arrives and
the fabric constructor builds `S'` from it, the listener returns normally and the canvas is
the canvas before followed by `S'`: it is one object longer, `S` is still on it, and `S'`
occurs on it once more than before. -/
theorem echo_appends_copy [DecidableEq O] (F : Fabric D O) (st : State D O) (S S' : O)
    (hS : S ∈ st.canvas.objects) (h : F.newPath (F.toObject S) = .ok S') :
    (onDraw F st (.value (F.toObject S))).2 = .returned ∧
    (onDraw F st (.value (F.toObject S))).1.canvas.objects = st.canvas.objects ++ [S'] ∧
    (onDraw F st (.value (F.toObject S))).1.canvas.objects.length
      = st.canvas.objects.length + 1 ∧
    S ∈ (onDraw F st (.value (F.toObject S))).1.canvas.objects ∧
    List.count S' (onDraw F st (.value (F.toObject S))).1.canvas.objects
      = List.count S' st.canvas.objects + 1 := by
  rw [onDraw_value_ok F _ _ _ h]
  simp [Canvas.add, hS]

/-- The amended claim C1 after the local creations of `S1` and `S2`: the echo of `S1`
arrives with `S2` drawn in between, and the canvas becomes `[S1, S2, S1]`. -/
theorem echo_appends_copy_witness :
    S1 ∈ (run plainFabric mounted [.create S1, .create S2]).canvas.objects ∧
    plainFabric.newPath (plainFabric.toObject S1) = .ok S1 ∧
    (onDraw plainFabric (run plainFabric mounted [.create S1, .create S2])
      (.value (plainFabric.toObject S1))).1.canvas.objects = [S1, S2, S1] ∧
    List.count S1 (onDraw plainFabric (run plainFabric mounted [.create S1, .create S2])
      (.value (plainFabric.toObject S1))).1.canvas.objects = 2 :=
  ⟨by decide, rfl,
   (echo_appends_copy plainFabric (run plainFabric mounted [.create S1, .create S2])
      S1 S1 (by decide) rfl).2.1,
   (echo_appends_copy plainFabric (run plainFabric mounted [.create S1, .create S2])
      S1 S1 (by decide) rfl).2.2.2.2⟩

/-- Claim C10: for every state and every payload `d` from which the fabric constructor
builds a path, the listener of `'draw'` returns normally, the canvas is the previous canvas
with that one path at the end (one object more, the earlier ones in place), and history,
redo stack and every other part of the state are as before. -/
theorem remote_stroke_is_appended (F : Fabric D O) (st : State D O) (d : D) (path : O)
    (h : F.newPath d = .ok path) :
    (onDraw F st (.value d)).2 = .returned ∧
    (onDraw F st (.value d)).1.canvas.objects = st.canvas.objects ++ [path] ∧
    (onDraw F st (.value d)).1.canvas.objects.length = st.canvas.objects.length + 1 ∧
    (onDraw F st (.value d)).1.canvas.objects.take st.canvas.objects.length
      = st.canvas.objects ∧
    (onDraw F st (.value d)).1.history = st.history ∧
    (onDraw F st (.value d)).1.redoStack = st.redoStack ∧
    (onDraw F st (.value d)).1 = { st with canvas := st.canvas.add path } := by
  rw [onDraw_value_ok F _ _ _ h]
  simp [Canvas.add]

/-- Claim C10 on the scenario of the specification: client B, freshly mounted, receives
`S1` and ends with canvas `[S1]`, empty history and empty redo stack. -/
theorem remote_stroke_is_appended_witness :
    plainFabric.newPath S1 = .ok S1 ∧
    (onDraw plainFabric mounted (.value S1)).1.canvas.objects = [S1] ∧
    (onDraw plainFabric mounted (.value S1)).1.history = [] ∧
    (onDraw plainFabric mounted (.value S1)).1.redoStack = [] :=
  ⟨rfl,
   (remote_stroke_is_appended plainFabric mounted S1 S1 rfl).2.1,
   (remote_stroke_is_appended plainFabric mounted S1 S1 rfl).2.2.2.2.1,
   (remote_stroke_is_appended plainFabric mounted S1 S1 rfl).2.2.2.2.2.1⟩

/-- Claim C8, refuted as stated: on a `null` payload, and on `undefined`, the listener of
`'draw'` throws a `TypeError`. -/
theorem null_payload_throws :
    (onDraw plainFabric mounted Payload.null).2 = .threw .typeError ∧
    (onDraw plainFabric mounted Payload.undefined).2 = .threw .typeError :=
  ⟨rfl, rfl⟩

/-- Claim C8, amended: the listener of `'draw'` validates nothing and catches nothing.  On
`null` and on `undefined` it throws a `TypeError` and the state is unchanged; on any other
payload it ends as the fabric constructor does: with the constructor's exception and the
state unchanged, or normally with the constructed path appended to the canvas.  Whenever it
throws the state is unchanged, and history and redo stack are unchanged in every case. -/
theorem draw_listener_on_any_payload (F : Fabric D O) (st : State D O) :
    onDraw F st .null = (st, .threw .typeError) ∧
    onDraw F st .undefined = (st, .threw .typeError) ∧
    (∀ d e, F.newPath d = .error e → onDraw F st (.value d) = (st, .threw e)) ∧
    (∀ d path, F.newPath d = .ok path →
      onDraw F st (.value d) = ({ st with canvas := st.canvas.add path }, .returned)) ∧
    (∀ data, (onDraw F st data).2 ≠ .returned → (onDraw F st data).1 = st) ∧
    (∀ data, (onDraw F st data).1.history = st.history ∧
      (onDraw F st data).1.redoStack = st.redoStack) := by
  refine ⟨rfl, rfl, ?_, ?_, ?_, ?_⟩
  · intro d e h
    simp [onDraw, h]
  · intro d path h
    exact onDraw_value_ok F st d path h
  · intro data
    cases data with
    | null => intro _; rfl
    | undefined => intro _; rfl
    | value d =>
      cases h : F.newPath d with
      | error e => intro _; simp [onDraw, h]
      | ok path => intro hne; simp [onDraw, h] at hne
  · intro data
    exact ⟨onDraw_history F st data, onDraw_redoStack F st data⟩

/-- The amended claim C8 on a fresh board, its two implications discharged at `S1`. -/
theorem draw_listener_on_any_payload_witness :
    onDraw plainFabric (mounted : State PathData PathData) .null
      = (mounted, .threw .typeError) ∧
    onDraw plainFabric mounted (.value S1)
      = ({ (mounted : State PathData PathData) with
            canvas := (mounted : State PathData PathData).canvas.add S1 }, .returned) ∧
    ((onDraw plainFabric mounted (.value S1)).1.history = [] ∧
      (onDraw plainFabric mounted (.value S1)).1.redoStack = []) :=
  ⟨(draw_listener_on_any_payload plainFabric mounted).1,
   (draw_listener_on_any_payload plainFabric mounted).2.2.2.1 S1 S1 rfl,
   (draw_listener_on_any_payload plainFabric mounted).2.2.2.2.2 (.value S1)⟩

/-! ## Undo and redo -/

theorem handleUndo_objects (st : State D O) :
    (handleUndo st).canvas.objects = st.canvas.objects.dropLast := by
  unfold handleUndo
  split
  · rfl
  · next h =>
    have : st.canvas.objects = [] := by
      cases hx : st.canvas.objects with
      | nil => rfl
      | cons a l => simp [hx] at h
    simp [this]

theorem undoTimes_objects (k : Nat) (st : State D O) :
    (undoTimes k st).canvas.objects
      = st.canvas.objects.take (st.canvas.objects.length - k) := by
  induction k generalizing st with
  | zero => simp [undoTimes]
  | succ k ih =>
    simp only [undoTimes]
    rw [ih, handleUndo_objects, List.dropLast_eq_take, List.take_take, List.length_take]
    congr 1
    omega

theorem foldl_createLocal_objects (F : Fabric D O) (ps : List O) (st : State D O) :
    (ps.foldl (createLocal F) st).canvas.objects = st.canvas.objects ++ ps := by
  induction ps generalizing st with
  | nil => simp
  | cons p ps ih =>
    rw [List.foldl_cons, ih]
    simp [createLocal, onPathCreated, Canvas.add]

/-- Claim C2, refuted as stated: a freshly mounted client, with no stroke of its own,
receives the remote stroke `S1`; its canvas is `[S1]` and its history is empty.  Undo then
empties the canvas and puts the remote stroke on the redo stack. -/
theorem undo_removes_remote_at_S1 :
    (run plainFabric mounted [.draw (.value S1)]).canvas.objects = [S1] ∧
    (run plainFabric mounted [.draw (.value S1)]).history = [] ∧
    (run plainFabric mounted [.draw (.value S1), .undo]).canvas.objects = [] ∧
    (run plainFabric mounted [.draw (.value S1), .undo]).redoStack = [S1] ∧
    (run plainFabric mounted [.draw (.value S1), .undo]).canvas.objects
      ≠ (run plainFabric mounted [.draw (.value S1)]).canvas.objects := by
  refine ⟨rfl, rfl, rfl, rfl, ?_⟩
  decide

/-- Claim C2, amended: `handleUndo` removes the last object of the canvas, whoever created
it: for every state the canvas after undo is the canvas before without its last object.
For every state and every payload from which the fabric constructor builds a path, undo
right after the receipt removes exactly that received path: the canvas is again the canvas
before the receipt, the received path is on top of the redo stack and the history is
untouched. -/
theorem undo_removes_last_received (F : Fabric D O) (st : State D O) (d : D) (path : O)
    (h : F.newPath d = .ok path) :
    (handleUndo st).canvas.objects = st.canvas.objects.dropLast ∧
    (handleUndo (onDraw F st (.value d)).1).canvas.objects = st.canvas.objects ∧
    (handleUndo (onDraw F st (.value d)).1).redoStack = st.redoStack ++ [path] ∧
    (handleUndo (onDraw F st (.value d)).1).history = st.history := by
  refine ⟨handleUndo_objects st, ?_⟩
  rw [onDraw_value_ok F _ _ _ h]
  rw [handleUndo_of_append _ st.canvas.objects path (by simp [Canvas.add])]
  simp

/-- The amended claim C2 on a board with no local stroke that already shows the remote
stroke `S2`: it receives `S1`, and undo takes `S1` off again, leaving `[S2]`. -/
theorem undo_removes_last_received_witness :
    plainFabric.newPath S1 = .ok S1 ∧
    (run plainFabric mounted [.draw (.value S2)]).history = [] ∧
    (run plainFabric mounted [.draw (.value S2), .draw (.value S1)]).canvas.objects
      = [S2, S1] ∧
    (handleUndo (onDraw plainFabric (run plainFabric mounted [.draw (.value S2)])
      (.value S1)).1).canvas.objects = [S2] ∧
    (handleUndo (onDraw plainFabric (run plainFabric mounted [.draw (.value S2)])
      (.value S1)).1).redoStack = [S1] ∧
    (handleUndo (onDraw plainFabric (run plainFabric mounted [.draw (.value S2)])
      (.value S1)).1).history = [] :=
  ⟨rfl, rfl, rfl,
   (undo_removes_last_received plainFabric (run plainFabric mounted [.draw (.value S2)])
      S1 S1 rfl).2⟩

theorem setColor_objects (st : State D O) (c : String) (h : c ≠ st.color) :
    (setColor st c).canvas.objects = [] := by
  simp [setColor, h, runEffect, newCanvas]

theorem setBrushSize_objects (st : State D O) (n : Nat) (h : n ≠ st.brushSize) :
    (setBrushSize st n).canvas.objects = [] := by
  simp [setBrushSize, h, runEffect, newCanvas]

/-- Claim C3, which the code breaks at a colour change: with `S1` drawn on a fresh board
the canvas is `[S1]`; picking the colour `#ff0000` runs the effect again, the canvas in
`canvasRef.current` is a new one without objects, and `[S1]` is not an initial segment of
`[]`.  The history and the brush of the new canvas show that only the canvas content was
lost: the history still holds `S1` and the brush has the new colour. -/
theorem colour_change_drops_strokes_at_S1 :
    (createLocal plainFabric mounted S1).canvas.objects = [S1] ∧
    (setColor (createLocal plainFabric mounted S1) "#ff0000").canvas.objects = [] ∧
    ¬ ((createLocal plainFabric mounted S1).canvas.objects
        <+: (setColor (createLocal plainFabric mounted S1) "#ff0000").canvas.objects) ∧
    (setColor (createLocal plainFabric mounted S1) "#ff0000").history = [S1] ∧
    (setColor (createLocal plainFabric mounted S1) "#ff0000").canvas.brushColor
      = "#ff0000" := by
  refine ⟨rfl, ?_, ?_, ?_, ?_⟩ <;> decide

/-- The operations of claim C3 other than the colour and brush size change: for every
state, a local stroke creation, the receipt of a `'draw'` event with any payload, and
`handleRedo` each leave the canvas before the operation as an initial segment of the
canvas after it. -/
theorem canvas_is_extended (F : Fabric D O) (st : State D O) :
    (∀ path, st.canvas.objects <+: (createLocal F st path).canvas.objects) ∧
    (∀ data, st.canvas.objects <+: (onDraw F st data).1.canvas.objects) ∧
    st.canvas.objects <+: (handleRedo st).canvas.objects := by
  refine ⟨?_, ?_, ?_⟩
  · intro path
    exact ⟨[path], rfl⟩
  · intro data
    cases data with
    | null => exact ⟨[], by simp [onDraw]⟩
    | undefined => exact ⟨[], by simp [onDraw]⟩
    | value d =>
      cases h : F.newPath d with
      | error e => exact ⟨[], by simp [onDraw, h]⟩
      | ok path => exact ⟨[path], by simp [onDraw, h, Canvas.add]⟩
  · unfold handleRedo
    split
    · next r _ => exact ⟨[r], rfl⟩
    · exact ⟨[], by simp⟩

/-- Claim C4: for `n` local creations `ps` on a freshly mounted board and `k` undos, the
canvas after the undos is the list of the first `n - k` created paths, in creation order,
which is the canvas as it was after the first `n - k` creations.  This holds for every `n`
and `k`, so in particular for `n ≥ 1` and `k ≤ n`; for `k > n` the canvas is empty. -/
theorem undo_after_creations (F : Fabric D O) (ps : List O) (k : Nat) :
    (undoTimes k (ps.foldl (createLocal F) mounted)).canvas.objects
      = ps.take (ps.length - k) ∧
    (undoTimes k (ps.foldl (createLocal F) mounted)).canvas.objects
      = ((ps.take (ps.length - k)).foldl (createLocal F) mounted).canvas.objects := by
  have h1 : (undoTimes k (ps.foldl (createLocal F) mounted)).canvas.objects
      = ps.take (ps.length - k) := by
    rw [undoTimes_objects, foldl_createLocal_objects]
    simp [mounted, runEffect, newCanvas]
  refine ⟨h1, ?_⟩
  rw [h1, foldl_createLocal_objects]
  simp [mounted, runEffect, newCanvas]

/-- Claim C4 at two creations followed by one undo: the canvas is `[S1]`. -/
theorem undo_after_creations_witness :
    (undoTimes 1 ([S1, S2].foldl (createLocal plainFabric) mounted)).canvas.objects
      = [S1] :=
  (undo_after_creations plainFabric [S1, S2] 1).1

/-- Claim C5: for every state with a non-empty canvas, `handleUndo` followed by
`handleRedo` gives back the state it started from, canvas and redo stack included.  Undo
takes the last object off the canvas and puts it on top of the redo stack, and redo puts
that same object back at the end of the canvas. -/
theorem undo_then_redo (st : State D O) (h : st.canvas.objects ≠ []) :
    handleRedo (handleUndo st) = st ∧
    (handleUndo st).canvas.objects = st.canvas.objects.dropLast ∧
    (handleUndo st).redoStack = st.redoStack ++ [st.canvas.objects.getLast h] ∧
    (handleRedo (handleUndo st)).canvas.objects
      = st.canvas.objects.dropLast ++ [st.canvas.objects.getLast h] ∧
    (handleRedo (handleUndo st)).redoStack = st.redoStack := by
  obtain ⟨color, brushSize, history, redoStack, ⟨objects, mode, bc, bw⟩, emitted⟩ := st
  simp only at h
  have hsplit : objects = objects.dropLast ++ [objects.getLast h] :=
    (List.dropLast_append_getLast h).symm
  generalize objects.getLast h = x at hsplit
  generalize objects.dropLast = xs at hsplit
  subst hsplit
  rw [handleUndo_of_append _ xs x rfl]
  simp [handleRedo, Canvas.add]

/-- Claim C5 on the scenario of the specification: A draws `S1`, undoes (canvas `[]`, redo
stack `[S1]`) and redoes (canvas `[S1]`). -/
theorem undo_then_redo_witness :
    (createLocal plainFabric mounted S1).canvas.objects ≠ [] ∧
    handleRedo (handleUndo (createLocal plainFabric mounted S1))
      = createLocal plainFabric mounted S1 ∧
    (handleUndo (createLocal plainFabric mounted S1)).canvas.objects = [] ∧
    (handleUndo (createLocal plainFabric mounted S1)).redoStack = [S1] ∧
    (handleRedo (handleUndo (createLocal plainFabric mounted S1))).canvas.objects = [S1] :=
  ⟨by decide,
   (undo_then_redo (createLocal plainFabric mounted S1) (by decide)).1,
   (undo_then_redo (createLocal plainFabric mounted S1) (by decide)).2.1,
   (undo_then_redo (createLocal plainFabric mounted S1) (by decide)).2.2.1,
   (undo_then_redo (createLocal plainFabric mounted S1) (by decide)).2.2.2.1⟩

/-- Claim C6: for every state and every created path `p`, the listener of
`'path:created'` leaves the history equal to the previous history followed by the data of
`p`, and the redo stack empty; `handleRedo` right after it changes nothing.  The same holds
for the whole local creation, in which fabric first adds `p` to the canvas. -/
theorem creation_is_recorded (F : Fabric D O) (st : State D O) (p : O) :
    (onPathCreated F st p).history = st.history ++ [F.toObject p] ∧
    (onPathCreated F st p).redoStack = [] ∧
    handleRedo (onPathCreated F st p) = onPathCreated F st p ∧
    (createLocal F st p).history = st.history ++ [F.toObject p] ∧
    (createLocal F st p).redoStack = [] ∧
    handleRedo (createLocal F st p) = createLocal F st p :=
  ⟨rfl, rfl, handleRedo_of_nil _ rfl, rfl, rfl, handleRedo_of_nil _ rfl⟩

/-- Claim C7, refuted as stated: A draws `S1` on a fresh board and undoes.  The stroke is
then on the redo stack and still in the history. -/
theorem undone_stroke_stays_in_history_at_S1 :
    (run plainFabric mounted [.create S1, .undo]).history = [plainFabric.toObject S1] ∧
    (run plainFabric mounted [.create S1, .undo]).redoStack = [S1] ∧
    plainFabric.toObject S1 ∈ (run plainFabric mounted [.create S1, .undo]).history ∧
    S1 ∈ (run plainFabric mounted [.create S1, .undo]).redoStack := by
  refine ⟨rfl, rfl, ?_, ?_⟩
  · decide
  · decide

theorem step_history (F : Fabric D O) (st : State D O) (ev : Event D O) :
    (step F st ev).history = st.history ++ createdData F [ev] := by
  cases ev with
  | create path => simp [step, createdData, createLocal, onPathCreated]
  | draw data => simp [step, createdData, onDraw_history]
  | undo => simp [step, createdData, handleUndo_history]
  | redo => simp [step, createdData, handleRedo_history]
  | pickColor c => simp [step, createdData, setColor_history]
  | pickBrushSize n => simp [step, createdData, setBrushSize_history]

theorem createdData_cons (F : Fabric D O) (ev : Event D O) (evs : List (Event D O)) :
    createdData F (ev :: evs) = createdData F [ev] ++ createdData F evs := by
  cases ev <;> simp [createdData]

/-- Claim C7, amended: the history is a log of the local creations and is never
shortened.  `handleUndo` and `handleRedo` leave it as it is, and after any sequence of
local creations, received `'draw'` events, undos, redos and colour or brush size changes
it is the previous history followed by the data of the paths created in the sequence, in
creation order; from the freshly mounted board it is exactly that data. -/
theorem history_is_creation_log (F : Fabric D O) (st : State D O)
    (evs : List (Event D O)) :
    (handleUndo st).history = st.history ∧
    (handleRedo st).history = st.history ∧
    (run F st evs).history = st.history ++ createdData F evs ∧
    (run F mounted evs).history = createdData F evs := by
  have hrun : ∀ (s : State D O), (run F s evs).history = s.history ++ createdData F evs := by
    induction evs with
    | nil => intro s; simp [run, createdData]
    | cons ev evs ih =>
      intro s
      have := ih (step F s ev)
      simp only [run, List.foldl_cons] at this ⊢
      rw [this, step_history, createdData_cons F ev evs, List.append_assoc]
  refine ⟨handleUndo_history st, handleRedo_history st, hrun st, ?_⟩
  rw [hrun]
  simp [mounted, runEffect]

/-- Claim C9: for every state whose redo stack is empty `handleRedo` returns the state
unchanged, and for every state whose canvas is empty `handleUndo` returns the state
unchanged; both handlers are total functions of the state and raise nothing. -/
theorem empty_stack_is_noop (st₁ st₂ : State D O)
    (h₁ : st₁.redoStack = []) (h₂ : st₂.canvas.objects = []) :
    handleRedo st₁ = st₁ ∧ handleUndo st₂ = st₂ :=
  ⟨handleRedo_of_nil st₁ h₁, handleUndo_of_nil st₂ h₂⟩

/-- Claim C9 on the freshly mounted board, where canvas and redo stack are both empty. -/
theorem empty_stack_is_noop_witness :
    (mounted : State PathData PathData).redoStack = [] ∧
    (mounted : State PathData PathData).canvas.objects = [] ∧
    handleRedo (mounted : State PathData PathData) = mounted ∧
    handleUndo (mounted : State PathData PathData) = mounted :=
  ⟨rfl, rfl, empty_stack_is_noop mounted mounted rfl rfl⟩

end Whiteboard
